import Mathlib

/-!
Verification of the `upl_microservice` UPL registry against its
natural-language specification.

The Rust sources are shallowly embedded:
* `src/id.rs` — the numeric UPL-id check-digit scheme (`calculate_check_from_vec`,
  `calculate_check`, `is_valid`, `UplId::new`);
* `src/upl.rs` — the UPL data model (`Location`, `Lock`, `Kind`, `VAT`,
  `Depreciation`, history events, `Upl`) and the single-UPL state machine;
* `src/main.rs` — the registry-level operations (`UplService::divide`,
  `UplService::split`, `UplService::close_cart`) over the two keyed
  collections.

Machine integers (`u32`) are modelled as `Nat`; the one place where overflow
matters — the unguarded `u32` subtractions producing `margin_net` — is
modelled explicitly modulo `2 ^ 32` (`u32sub`).  The `f32` price
computations are modelled as exact rational arithmetic with round half away
from zero, which agrees with `f32` on the magnitudes exercised here.
Wall-clock timestamps (`Utc::now()`) are outside the model: `created_at`
instants are represented by `0` and `best_before` by an abstract
`Option Nat`.
-/

namespace UplMs

/-- Release-build semantics of Rust `a - b` on `u32` operands: two's
complement wrapping subtraction.  For `b ≤ a < 2 ^ 32` this is plain `a - b`;
for `a < b` it wraps around modulo `2 ^ 32`. -/
def u32sub (a b : Nat) : Nat := (a + 2 ^ 32 - b) % 2 ^ 32

/-! ## src/id.rs -/

/-- Little-endian decimal digits of `n`, computed with structural fuel so the
kernel can evaluate it (`Nat.digits` is defined by well-founded recursion).
`digitsLE fuel n = Nat.digits 10 n` whenever `n ≤ fuel`. -/
def digitsLE : Nat → Nat → List Nat
  | _, 0 => []
  | 0, _ + 1 => []
  | fuel + 1, n + 1 => (n + 1) % 10 :: digitsLE fuel ((n + 1) / 10)

/-- Big-endian decimal digit list of `n`, as produced by Rust
`n.to_string().chars().map(|c| c.to_digit(10))` in `src/id.rs` (so `0`
yields `[0]`, and there are no leading zeros otherwise). -/
def natDigitsBE (n : Nat) : List Nat :=
  if n = 0 then [0] else (digitsLE n n).reverse

/-- Rust `calculate_check_from_vec` (src/id.rs:16): reverse the digit vector,
compute the weighted sum `Σ digit · (index + 1)`, let
`remainder = 10 - sum % 10`; the pair of check digits is `(9, 0)` when the
remainder is `10` and `(10 - remainder, remainder)` otherwise. -/
def calculate_check_from_vec (n : List Nat) : Nat × Nat :=
  let s := n.reverse.enum.foldl (fun acc p => acc + p.2 * (p.1 + 1)) 0
  let remainder := 10 - s % 10
  if remainder = 10 then (9, 0) else (10 - remainder, remainder)

/-- Rust `calculate_check` (src/id.rs:30): the check pair of the decimal
digit vector of `n`. -/
def calculate_check (n : Nat) : Nat × Nat :=
  calculate_check_from_vec (natDigitsBE n)

/-- Rust `is_valid` (src/id.rs:44): split off the first and last decimal
digits and check that the middle digits recompute exactly that pair. -/
def is_valid (n : Nat) : Bool :=
  match natDigitsBE n with
  | [] => false
  | first :: rest =>
    match rest.getLast? with
    | some lastDigit => decide (calculate_check_from_vec rest.dropLast = (first, lastDigit))
    | none => false

/-- Rust `UplId::new` (src/id.rs:71): format the first check digit, the base
number and the last check digit as one decimal string and parse it back as a
`u32`; `unwrap_or_default` turns a parse overflow into `0`. -/
def UplId.new (n : Nat) : Nat :=
  let c := calculate_check n
  let v := c.1 * 10 ^ ((natDigitsBE n).length + 1) + n * 10 + c.2
  if v < 2 ^ 32 then v else 0

/-! ## gzlib LuhnCheck (external crate) -/

/-- One step of the Luhn doubling rule: double the digit and subtract `9`
when the double exceeds `9`. -/
def luhnDouble (d : Nat) : Nat := if 9 < 2 * d then 2 * d - 9 else 2 * d

/-- Modelled from the spec: the `gzlib::id::LuhnCheck` validation applied to
`String` UPL ids by `Upl::new`, `Upl::split`, `Upl::split_bulk` and
`Upl::divide` lives in the external `gzlib` crate, not in this repository.
The spec (§3, §4.1) describes it as a Luhn check, "Mod-10 with doubled
alternating digits": reading the decimal digits right to left, every second
digit is doubled (subtracting 9 when the double exceeds 9) and the id is
valid when the total sum is divisible by 10. -/
def luhn_check (s : String) : Bool :=
  if s.isEmpty then false
  else if !(s.toList.all Char.isDigit) then false
  else
    let ds := s.toList.map (fun ch => ch.toNat - 48)
    let total := ds.reverse.enum.foldl
      (fun acc p => acc + (if p.1 % 2 = 1 then luhnDouble p.2 else p.2)) 0
    decide (total % 10 = 0)

/-! ## src/upl.rs — value types -/

/-- Rust `Location` (src/upl.rs:278). -/
inductive Location
  | Stock (id : Nat)
  | Delivery (id : Nat)
  | Cart (id : String)
  | Discard (id : Nat)
  deriving DecidableEq

/-- Rust `Lock` (src/upl.rs:351). -/
inductive Lock
  | Cart (id : String)
  | Delivery (id : Nat)
  | Inventory (id : Nat)
  | None
  deriving DecidableEq

/-- Rust `Lock::is_none` (src/upl.rs:383), translated faithfully: the
source's wildcard arm returns `true`, so the function returns `true` for
every variant, not only for `Lock::None`. -/
def Lock.is_none : Lock → Bool
  | Lock.None => true
  | _ => true

/-- Rust `CreatedBy` (src/upl.rs:187). -/
inductive CreatedBy
  | Uid (uid : Nat)
  | Technical
  deriving DecidableEq

/-- Rust `UplHistoryEvent` (src/upl.rs:228).  `from`/`to` are renamed
`from_loc`/`to_loc` (`from` is a Lean keyword); dates are abstract `Nat`
instants. -/
inductive UplHistoryEvent
  | Created
  | Archived
  | Moved (from_loc to_loc : Location)
  | BestBeforeUpdated (to_date : Option Nat)
  | Locked (to_lock : Lock)
  | Unlocked
  | SetDeprecated (depreciation_id : Nat) (comment : String)
  | DeprecationRemoved
  | SetDepreciatedPrice (retail_net_price : Option Nat)
  | Split (new_upl_id : String)
  | Divided (new_upl_id : String) (requested_amount : Nat)
  | None
  deriving DecidableEq

/-- Rust `UplHistoryItem` (src/upl.rs:201); the `created_at: Utc::now()`
wall-clock field is outside the model. -/
structure UplHistoryItem where
  event : UplHistoryEvent
  created_by : CreatedBy
  deriving DecidableEq

/-- Rust `UplHistoryItem::new` (src/upl.rs:208). -/
def UplHistoryItem.new (created_by : CreatedBy) (event : UplHistoryEvent) : UplHistoryItem :=
  { event := event, created_by := created_by }

/-- Rust `Kind` (src/upl.rs:307). -/
inductive Kind
  | Sku (sku : Nat)
  | BulkSku (sku : Nat) (upl_pieces : Nat)
  | OpenedSku (sku : Nat) (amount : Nat) (successors : List String)
  | DerivedProduct (derived_from : String) (derived_from_sku : Nat) (amount : Nat)
  deriving DecidableEq

/-- Rust `Depreciation` (src/upl.rs:396). -/
structure Depreciation where
  depreciation_id : Nat
  net_retail_price : Option Nat
  margin_net : Option Nat
  comment : String
  deriving DecidableEq

/-- Rust `Depreciation::new` (src/upl.rs:416). -/
def Depreciation.new (depreciation_id : Nat) (comment : String) : Depreciation :=
  { depreciation_id := depreciation_id, net_retail_price := none,
    margin_net := none, comment := comment }

/-- Rust `Depreciation::set_price` (src/upl.rs:425). -/
def Depreciation.set_price (d : Depreciation)
    (net_retail_price margin_net : Option Nat) : Depreciation :=
  { d with net_retail_price := net_retail_price, margin_net := margin_net }

/-- Rust `VAT` (src/upl.rs:432); the numeric variants `_5`, `_18`, `_27`
are spelled `V5`, `V18`, `V27`. -/
inductive VAT
  | AAM
  | FAD
  | TAM
  | V5
  | V18
  | V27
  deriving DecidableEq

/-- Rust `impl Mul<VAT> for u32` (src/upl.rs:477):
`(self as f32 * rate).round() as u32`, modelled as exact rational
arithmetic with round half away from zero (`floor(x·rate + 1/2)`), which
agrees with the `f32` computation on the magnitudes exercised here. -/
def mulVAT (x : Nat) (v : VAT) : Nat :=
  match v with
  | VAT.AAM => x
  | VAT.FAD => x
  | VAT.TAM => x
  | VAT.V5 => (x * 105 + 50) / 100
  | VAT.V18 => (x * 118 + 50) / 100
  | VAT.V27 => (x * 127 + 50) / 100

/-- The amount-proportional price computation of `recalculate_prices`
(src/upl.rs:1346, 1363): `(amount as f32 * (a as f32 / d as f32)).round()`,
modelled as exact rational round half away from zero of `amount·a/d`. -/
def roundRatio (amount a d : Nat) : Nat := (2 * amount * a + d) / (2 * d)

/-! ## src/upl.rs — the `Upl` entity -/

/-- Rust `Upl` (src/upl.rs:494).  `created_at` instants are abstract
(`Utc::now()` is represented by `0`); `best_before` is an abstract
`Option Nat` instant. -/
structure Upl where
  id : String
  product_id : Nat
  sku_divisible_amount : Nat
  product_unit : String
  kind : Kind
  procurement_id : Nat
  procurement_net_price : Nat
  procurement_net_price_sku : Nat
  margin_net : Nat
  location : Location
  depreciation : Option Depreciation
  best_before : Option Nat
  sku_divisible : Bool
  sku_price_net : Nat
  price_net : Nat
  vat : VAT
  price_gross : Nat
  lock : Lock
  history : List UplHistoryItem
  created_at : Nat
  created_by : Nat
  deriving DecidableEq

namespace Upl

/-- Rust `Upl::get_sku` (src/upl.rs:628). -/
def get_sku (u : Upl) : Nat :=
  match u.kind with
  | Kind.Sku sku => sku
  | Kind.BulkSku sku _ => sku
  | Kind.OpenedSku sku _ _ => sku
  | Kind.DerivedProduct _ derived_from_sku _ => derived_from_sku

/-- Rust `Upl::can_move` (src/upl.rs:657). -/
def can_move (u : Upl) (to_loc : Location) : Bool :=
  match to_loc with
  | Location.Stock _ =>
    match u.lock with
    | Lock.None => true
    | _ => false
  | Location.Delivery id =>
    match u.lock with
    | Lock.Delivery lid => decide (id = lid)
    | Lock.None => true
    | _ => false
  | Location.Cart id =>
    match u.lock with
    | Lock.Cart lid => decide (id = lid)
    | Lock.None => true
    | _ => false
  | Location.Discard _ =>
    match u.lock with
    | Lock.Inventory _ => true
    | _ => false

/-- Rust `Upl::has_lock` (src/upl.rs:717). -/
def has_lock (u : Upl) : Bool :=
  match u.lock with
  | Lock.None => false
  | _ => true

/-- Rust `Upl::can_lock` (src/upl.rs:728): delegates to the (buggy)
`Lock::is_none`. -/
def can_lock (u : Upl) : Bool := u.lock.is_none

/-- Rust `Upl::set_history` (src/upl.rs:1226): push the event. -/
def set_history (u : Upl) (e : UplHistoryItem) : Upl :=
  { u with history := u.history ++ [e] }

/-- Rust `Upl::unlock_forced` (src/upl.rs:768). -/
def unlock_forced (u : Upl) : Upl :=
  ({ u with lock := Lock.None }).set_history
    (UplHistoryItem.new CreatedBy.Technical UplHistoryEvent.Unlocked)

/-- Rust `Upl::move_upl` (src/upl.rs:697): guard with `can_move`, set the
location, append the `Moved` event, then force-clear the lock. -/
def move_upl (u : Upl) (to_loc : Location) (created_by : Nat) : Except String Upl :=
  if !u.can_move to_loc then Except.error "Cannot move to target location"
  else
    let from_loc := u.location
    Except.ok ((({ u with location := to_loc }).set_history
      (UplHistoryItem.new (CreatedBy.Uid created_by)
        (UplHistoryEvent.Moved from_loc to_loc))).unlock_forced)

/-- Rust `Upl::lock` (src/upl.rs:735), renamed `lock_upl` because `lock` is
the field projection.  Guarded by `can_lock`, which — through the buggy
`Lock::is_none` — is always `true`. -/
def lock_upl (u : Upl) (l : Lock) (created_by : Nat) : Except String Upl :=
  if !u.can_lock then Except.error "Cannot lock! Already locked!"
  else Except.ok (({ u with lock := l }).set_history
    (UplHistoryItem.new (CreatedBy.Uid created_by) (UplHistoryEvent.Locked l)))

/-- Rust `Upl::unlock` (src/upl.rs:751). -/
def unlock (u : Upl) (l : Lock) (created_by : Nat) : Except String Upl :=
  if u.lock = l then
    Except.ok (({ u with lock := Lock.None }).set_history
      (UplHistoryItem.new (CreatedBy.Uid created_by) UplHistoryEvent.Unlocked))
  else Except.error "A kért UPL zárolása nem fololdható. Nem megfelelő a forrás zárlat!"

/-- Rust `Upl::set_depreciation` (src/upl.rs:780). -/
def set_depreciation (u : Upl) (depreciation_id : Nat) (comment : String)
    (created_by : Nat) : Except String Upl :=
  if u.depreciation.isSome then Except.error "A termék már selejtezett!"
  else Except.ok
    (({ u with depreciation := some (Depreciation.new depreciation_id comment) }).set_history
      (UplHistoryItem.new (CreatedBy.Uid created_by)
        (UplHistoryEvent.SetDeprecated depreciation_id comment)))

/-- Rust `Upl::remove_deprecation` (src/upl.rs:806). -/
def remove_deprecation (u : Upl) (created_by : Nat) : Except String Upl :=
  if u.depreciation.isNone then Except.error "A UPL nem selejtezett!"
  else Except.ok (({ u with depreciation := none }).set_history
    (UplHistoryItem.new (CreatedBy.Uid created_by) UplHistoryEvent.DeprecationRemoved))

/-- Rust `Upl::set_depreciation_price` (src/upl.rs:818): when depreciated,
the special margin is the unguarded `u32` subtraction
`discounted_price - self.procurement_net_price`. -/
def set_depreciation_price (u : Upl) (net_retail_price : Option Nat)
    (created_by : Nat) : Except String Upl :=
  match u.depreciation with
  | some dep =>
    let margin : Option Nat :=
      match net_retail_price with
      | some discounted_price => some (u32sub discounted_price u.procurement_net_price)
      | none => none
    Except.ok
      (({ u with depreciation := some (dep.set_price net_retail_price margin) }).set_history
        (UplHistoryItem.new (CreatedBy.Uid created_by)
          (UplHistoryEvent.SetDepreciatedPrice net_retail_price)))
  | none => Except.error "UPL is not depreciated!"

/-- Rust `Upl::is_depreciated` (src/upl.rs:848). -/
def is_depreciated (u : Upl) : Bool := u.depreciation.isSome

/-- Rust `Upl::is_divisible` (src/upl.rs:1181). -/
def is_divisible (u : Upl) : Bool :=
  match u.kind with
  | Kind.Sku _ => decide (1 < u.sku_divisible_amount) && u.sku_divisible
  | Kind.BulkSku _ _ => false
  | Kind.OpenedSku _ amount _ => decide (1 < amount)
  | Kind.DerivedProduct _ _ _ => false

/-- Rust `Upl::get_divisible_amount` (src/upl.rs:1202). -/
def get_divisible_amount (u : Upl) : Option Nat :=
  match u.kind with
  | Kind.Sku _ => some u.sku_divisible_amount
  | Kind.BulkSku _ _ => none
  | Kind.OpenedSku _ amount _ => some amount
  | Kind.DerivedProduct _ _ _ => none

/-- Rust `Upl::get_upl_piece` (src/upl.rs:910). -/
def get_upl_piece (u : Upl) : Nat :=
  match u.kind with
  | Kind.BulkSku _ upl_pieces => upl_pieces
  | _ => 1

/-- Rust `Upl::recalculate_prices` (src/upl.rs:1320).  For `Sku`/`BulkSku`
only the retail prices are written (`procurement_net_price` is left
untouched); for `OpenedSku`/`DerivedProduct` retail price and procurement
value are recomputed proportionally to the amount.  The final margin is the
unguarded `u32` subtraction `price_net - procurement_net_price`. -/
def recalculate_prices (u : Upl) : Upl :=
  let u1 :=
    match u.kind with
    | Kind.Sku _ =>
      { u with price_net := u.sku_price_net,
               price_gross := mulVAT u.sku_price_net u.vat }
    | Kind.BulkSku _ _ =>
      { u with price_net := u.sku_price_net,
               price_gross := mulVAT u.sku_price_net u.vat }
    | Kind.OpenedSku _ amount _ =>
      let pn := roundRatio amount u.sku_price_net u.sku_divisible_amount
      { u with price_net := pn,
               price_gross := mulVAT pn u.vat,
               procurement_net_price :=
                 roundRatio amount u.procurement_net_price_sku u.sku_divisible_amount }
    | Kind.DerivedProduct _ _ amount =>
      let pn := roundRatio amount u.sku_price_net u.sku_divisible_amount
      { u with price_net := pn,
               price_gross := mulVAT pn u.vat,
               procurement_net_price :=
                 roundRatio amount u.procurement_net_price_sku u.sku_divisible_amount }
  { u1 with margin_net := u32sub u1.price_net u1.procurement_net_price }

/-- Rust `Upl::set_price` (src/upl.rs:1278). -/
def set_price (u : Upl) (sku_net_price : Nat) (sku_vat : VAT) : Except String Upl :=
  Except.ok ({ u with sku_price_net := sku_net_price, vat := sku_vat }).recalculate_prices

/-- Rust `Upl::set_divisible` (src/upl.rs:1379). -/
def set_divisible (u : Upl) (divisible : Bool) : Upl :=
  { u with sku_divisible := divisible }

/-- Rust `Upl::split` (src/upl.rs:917).  The Rust method mutates the parent
in place and returns the child; here the result is the pair
`(parent after the split, child)`.  Note two faithful details: the child is
a clone of the already-decremented parent taken before the `Split` history
event is appended, and the child's `id` field is never set to
`new_upl_id` (the new id is only recorded in the parent's history). -/
def split (u : Upl) (new_upl_id : String) (piece : Nat)
    (created_by : Nat) : Except String (Upl × Upl) :=
  if piece = 0 then Except.error "Az új UPL mennyiség nem lehet 0!"
  else if u.has_lock then
    Except.error "A termékből nem tudunk leválasztani, mivel zárolva van!"
  else if !(luhn_check new_upl_id) then Except.error "Az új UPL ID invalid!"
  else
    match u.kind with
    | Kind.BulkSku sku upl_pieces =>
      if piece < upl_pieces then
        let parent0 := { u with kind := Kind.BulkSku sku (upl_pieces - piece) }
        -- the `piece == 0` arm of the inner Rust match is unreachable
        -- (piece was checked above)
        let child0 := { parent0 with
          kind := if piece = 1 then Kind.Sku sku else Kind.BulkSku sku piece }
        let parent1 := parent0.set_history
          (UplHistoryItem.new (CreatedBy.Uid created_by)
            (UplHistoryEvent.Split new_upl_id))
        Except.ok (parent1.recalculate_prices, child0.recalculate_prices)
      else Except.error "A gyüjtő mérete nem nagyobb, mint a kért mennyiség!"
    | _ => Except.error "Az adott UPL-t nem lehet szét választani, nem tömeges UPL!"

/-- One iteration of the `for_each` loop in `Upl::split_bulk`: split one
piece off the accumulated parent, silently skipping `split` errors
(`if let Ok(upl) = self.split(...)`). -/
def splitBulkStep (created_by : Nat) (acc : Upl × List Upl) (id : String) : Upl × List Upl :=
  match acc.1.split id 1 created_by with
  | Except.ok pc => (pc.1, acc.2 ++ [pc.2])
  | Except.error _ => acc

/-- Rust `Upl::split_bulk` (src/upl.rs:976): validate every new id, check
the bulk is strictly larger than the request, then repeatedly `split` one
piece, silently skipping individual `split` errors.  (The Rust error
message interpolates the offending id; the model keeps the fixed prefix.) -/
def split_bulk (u : Upl) (new_upl_ids : List String)
    (created_by : Nat) : Except String (Upl × List Upl) :=
  if new_upl_ids.any (fun id => !(luhn_check id)) then
    Except.error "Az alábbi új UPL ID invalid!"
  else if u.has_lock then
    Except.error "A termékből nem tudunk szétválasztani, mivel zárolva van!"
  else
    match u.kind with
    | Kind.BulkSku _ upl_pieces =>
      if upl_pieces ≤ new_upl_ids.length then
        Except.error "A UPL nem elég nagy, hogy a kért mennyiséget leválasszuk róla!"
      else
        Except.ok (new_upl_ids.foldl (splitBulkStep created_by) (u, []))
    | _ => Except.error "A kért UPL nem szétválasztható!"

/-- Rust `Upl::open` (src/upl.rs:1007), renamed `open_upl` because `open`
is a Lean keyword.  No prices are recomputed by `open`. -/
def open_upl (u : Upl) : Except String Upl :=
  if !u.is_divisible then
    Except.error "A kért UPL nem mérhető ki, így nem bontható meg!"
  else if u.has_lock then
    Except.error "A terméket nem tudjuk megnyitni, mivel zárolva van!"
  else
    match u.get_divisible_amount with
    | none => Except.error "A megadott SKU nem mérhető ki!"
    | some _ =>
      match u.kind with
      | Kind.Sku sku =>
        Except.ok { u with kind := Kind.OpenedSku sku u.sku_divisible_amount [] }
      | _ => Except.error "A kért terméket nem lehet megbontani, mert vagy gyüjtő, vagy már bontott."

/-- Rust `Upl::close` (src/upl.rs:1042). -/
def close (u : Upl) : Except String Upl :=
  if u.has_lock then
    Except.error "A terméket nem tudjuk lezárni, mivel zárolva van!"
  else
    match u.kind with
    | Kind.OpenedSku sku amount _ =>
      if amount ≠ u.sku_divisible_amount then
        Except.error "A termékből már kimértek, így nem zárható vissza."
      else Except.ok { u with kind := Kind.Sku sku }
    | _ => Except.error "A kért nem bontott termék, így nem lehet vissza zárni."

/-- Rust `Upl::divide` (src/upl.rs:1067).  The Rust method mutates the
parent (decrement `amount`, append the successor id) and returns the child;
here the result is `(parent after the divide, child)`.  The child is a
clone of the mutated parent with a fresh id, `created_by`, a fresh
`created_at` (`Utc::now()`, modelled `0`) and a `DerivedProduct` kind;
`derived_from_sku` is `self.get_sku()` of the mutated parent, which is the
parent's sku.  No history event is appended by `divide`. -/
def divide (u : Upl) (new_upl_id : String) (requested_amount : Nat)
    (created_by : Nat) : Except String (Upl × Upl) :=
  if requested_amount = 0 then Except.error "Nem lehet 0 egységet kimérni!"
  else if u.has_lock then
    Except.error "A termékből nem tudunk kimérni, mivel zárolva van!"
  else if !(luhn_check new_upl_id) then Except.error "Az új UPL id invalid!"
  else
    match u.kind with
    | Kind.OpenedSku sku amount successors =>
      if amount ≤ requested_amount then
        Except.error "A kért termék túl kicsi a kívánt mértékhez!"
      else
        let parent0 := { u with
          kind := Kind.OpenedSku sku (amount - requested_amount)
            (successors ++ [new_upl_id]) }
        let child0 := { parent0 with
          id := new_upl_id,
          created_by := created_by,
          created_at := 0,
          kind := Kind.DerivedProduct u.id sku requested_amount }
        Except.ok (parent0.recalculate_prices, child0.recalculate_prices)
    | _ => Except.error "A kért termék nem mérhető ki! Csak bontott termék mérhető ki!"

/-- Rust `Upl::merge` (src/upl.rs:1137).  Only the parent's depreciation
and both locks are checked — the child's depreciation is not.  On success
the child's amount is added back to the parent's remaining amount and the
prices are recomputed; the successor list is not touched. -/
def merge (u : Upl) (upl_to_merge : Upl) (_by_uid : Nat) : Except String Upl :=
  if u.is_depreciated then
    Except.error "A szülő UPL selejtezett. Selejtezett termékbe nem tudunk vissza tenni"
  else if u.has_lock then
    Except.error "Nem tehetjük vissza a terméket, mert a szülő termék zárolva van!"
  else if upl_to_merge.has_lock then
    Except.error "Nem tehetjük vissza a terméket, mert az zárolva van!"
  else
    match u.kind with
    | Kind.OpenedSku sku amount_parent successors =>
      match upl_to_merge.kind with
      | Kind.DerivedProduct derived_from _ child_amount =>
        if u.id ≠ derived_from then
          Except.error "A kért UPL nem tehető vissza másik szülőbe!"
        else Except.ok
          ({ u with kind :=
              Kind.OpenedSku sku (amount_parent + child_amount) successors }).recalculate_prices
      | _ => Except.error "A kért UPL nem kimért UPL, nem tehető vissza!"
    | _ => Except.error "A cél UPL nem nyitott termék!"

/-- Rust `Upl::new` (src/upl.rs:555): Luhn-check the id, derive the kind
from `(is_opened, piece)`, zero-init the derived prices and recompute them. -/
def new (upl_id : String) (product_id : Nat) (product_unit : String) (sku : Nat)
    (piece : Nat) (sku_divisible_amount : Nat) (sku_divisible : Bool)
    (sku_price_net : Nat) (sku_vat : VAT) (procurement_id : Nat)
    (procurement_net_price_sku : Nat) (location : Location)
    (best_before : Option Nat) (is_opened : Bool)
    (created_by : Nat) : Except String Upl :=
  if !(luhn_check upl_id) then Except.error "A megadott UPL ID nem valid!"
  else
    let kind :=
      if is_opened then Kind.OpenedSku sku piece []
      else if 1 < piece then Kind.BulkSku sku piece
      else Kind.Sku sku
    let u : Upl := {
      id := upl_id,
      product_id := product_id,
      kind := kind,
      product_unit := product_unit,
      procurement_id := procurement_id,
      procurement_net_price := 0,
      procurement_net_price_sku := procurement_net_price_sku,
      location := location,
      depreciation := none,
      best_before := best_before,
      lock := Lock.None,
      history := [UplHistoryItem.new (CreatedBy.Uid created_by) UplHistoryEvent.Created],
      created_at := 0,
      created_by := created_by,
      sku_divisible_amount := sku_divisible_amount,
      margin_net := 0,
      sku_divisible := sku_divisible,
      sku_price_net := sku_price_net,
      price_net := 0,
      vat := sku_vat,
      price_gross := 0 }
    Except.ok u.recalculate_prices

end Upl

/-! ## src/main.rs — the registry service

The two keyed collections live in `packman::VecPack`, an external crate;
its keyed-document-store interface is modelled from the spec (§1, §4.2):
find-by-id, insert (failing when the id is already present),
mutate-in-place and remove-by-id.  Collections are association lists keyed
by the `id` field. -/

/-- Modelled from the spec: `VecPack::find_id` — find-by-id in a keyed
collection. -/
def findId (l : List Upl) (id : String) : Option Upl :=
  l.find? (fun u => u.id = id)

/-- Modelled from the spec: `VecPack::insert` — adds the UPL, failing when
the id is already present in the collection. -/
def insertPack (l : List Upl) (u : Upl) : Except String (List Upl) :=
  if l.any (fun v => v.id = u.id) then Except.error "AlreadyExists"
  else Except.ok (l ++ [u])

/-- Modelled from the spec: in-place mutation of the entry keyed by `id`
(`find_id_mut` followed by a write; ids are unique by the insert
discipline). -/
def updatePack (l : List Upl) (id : String) (f : Upl → Upl) : List Upl :=
  l.map (fun u => if u.id = id then f u else u)

/-- Modelled from the spec: `VecPack::remove_pack` — remove the entry keyed
by `id` (ids are unique by the insert discipline). -/
def removePack (l : List Upl) (id : String) : List Upl :=
  l.filter (fun u => u.id ≠ id)

/-- Rust `UplService` (src/main.rs:15): the active and archived keyed
collections. -/
structure UplService where
  upls : List Upl
  archive : List Upl
  deriving DecidableEq

namespace UplService

/-- Rust `UplService::divide` (src/main.rs:212): find the parent, mutate it
in place through `Upl::divide`, then insert the child; the `?` on the
insert propagates an `AlreadyExists` error after the parent has already
been mutated.  The result is the final registry state paired with the
service result (the parent view on success). -/
def divide (s : UplService) (upl new_upl : String) (requested_amount : Nat)
    (created_by : Nat) : UplService × Except String Upl :=
  match findId s.upls upl with
  | none => (s, Except.error "NotFound")
  | some parent =>
    match parent.divide new_upl requested_amount created_by with
    | Except.error e => (s, Except.error e)
    | Except.ok pc =>
      let s1 : UplService := { s with upls := updatePack s.upls upl (fun _ => pc.1) }
      match insertPack s1.upls pc.2 with
      | Except.error e => (s1, Except.error e)
      | Except.ok upls2 => ({ s1 with upls := upls2 }, Except.ok pc.1)

/-- Rust `UplService::split` (src/main.rs:192): same shape as `divide` —
the parent is mutated in place by `Upl::split` before the child insert may
fail. -/
def split (s : UplService) (upl new_upl : String) (piece : Nat)
    (created_by : Nat) : UplService × Except String Upl :=
  match findId s.upls upl with
  | none => (s, Except.error "NotFound")
  | some parent =>
    match parent.split new_upl piece created_by with
    | Except.error e => (s, Except.error e)
    | Except.ok pc =>
      let s1 : UplService := { s with upls := updatePack s.upls upl (fun _ => pc.1) }
      match insertPack s1.upls pc.2 with
      | Except.error e => (s1, Except.error e)
      | Except.ok upls2 => ({ s1 with upls := upls2 }, Except.ok pc.1)

/-- The first pass of `close_cart`: a UPL locked to the cart is moved to
`Location::Cart(cart_id)` (errors of the move are discarded by `let _ =`);
any other UPL is left as it is. -/
def closeCartStep (cart_id : String) (created_by : Nat) (u : Upl) : Upl :=
  if u.lock = Lock.Cart cart_id then
    match u.move_upl (Location.Cart cart_id) created_by with
    | Except.ok u2 => u2
    | Except.error _ => u
  else u

/-- One archive insertion of `close_cart`: `let _ = archive.insert(u)` —
the `AlreadyExists` error is discarded. -/
def archiveInsertStep (arch : List Upl) (u : Upl) : List Upl :=
  match insertPack arch u with
  | Except.ok arch2 => arch2
  | Except.error _ => arch

/-- One active-collection removal of `close_cart`:
`let _ = upls.remove_pack(&id)` — errors are discarded. -/
def activeRemoveStep (l : List Upl) (u : Upl) : List Upl :=
  removePack l u.id

/-- Rust `UplService::close_cart` (src/main.rs:339): move every UPL locked
to the cart into the cart location (clearing the lock), collect every UPL
now located at the cart, insert them into the archive (insert errors are
discarded by `let _ =`), and remove their ids from the active collection
(errors discarded likewise). -/
def close_cart (s : UplService) (cart_id : String) (created_by : Nat) : UplService :=
  let upls1 := s.upls.map (closeCartStep cart_id created_by)
  let upls_to_archive := upls1.filter (fun u => u.location = Location.Cart cart_id)
  let archive1 := upls_to_archive.foldl archiveInsertStep s.archive
  let upls2 := upls_to_archive.foldl activeRemoveStep upls1
  { upls := upls2, archive := archive1 }

end UplService

/-! ## Property vocabulary and concrete inputs used by the theorems -/

/-- Rust `impl Default for Upl` (src/upl.rs:1404); `Utc::now()` is the
abstract instant `0`. -/
def Upl.default : Upl :=
  { id := "",
    product_id := 0,
    product_unit := "",
    kind := Kind.Sku 0,
    procurement_id := 0,
    procurement_net_price := 0,
    location := Location.Stock 0,
    depreciation := none,
    best_before := none,
    sku_divisible_amount := 1,
    lock := Lock.None,
    history := [],
    created_at := 0,
    created_by := 0,
    procurement_net_price_sku := 0,
    margin_net := 0,
    price_net := 0,
    vat := VAT.V27,
    price_gross := 0,
    sku_divisible := false,
    sku_price_net := 0 }

/-- The weak kind shape actually maintained by the code: a `BulkSku` keeps
at least one piece, an `OpenedSku` at least one remaining subunit and a
`DerivedProduct` a positive amount.  (The spec demands `pieces ≥ 2` for
`BulkSku`, which the code does not maintain.) -/
def KindWFb : Kind → Bool
  | Kind.Sku _ => true
  | Kind.BulkSku _ p => decide (1 ≤ p)
  | Kind.OpenedSku _ a _ => decide (1 ≤ a)
  | Kind.DerivedProduct _ _ a => decide (1 ≤ a)

/-- `KindWFb` of a fallible single-UPL result (errors are vacuously fine). -/
def wfOk : Except String Upl → Bool
  | Except.ok u => KindWFb u.kind
  | Except.error _ => true

/-- `KindWFb` of a fallible parent-child result. -/
def wfOkPair : Except String (Upl × Upl) → Bool
  | Except.ok pc => KindWFb pc.1.kind && KindWFb pc.2.kind
  | Except.error _ => true

/-- `KindWFb` of a fallible `split_bulk` result. -/
def wfOkBulk : Except String (Upl × List Upl) → Bool
  | Except.ok pl => KindWFb pl.1.kind && pl.2.all (fun c => KindWFb c.kind)
  | Except.error _ => true

/-- The `open(U); C = divide(U, n); merge(U, C)` sequence of spec §8 P6,
chained through the fallible state machine. -/
def openDivideMerge (u : Upl) (new_id : String) (n cb : Nat) : Except String Upl :=
  match u.open_upl with
  | Except.error e => Except.error e
  | Except.ok u1 =>
    match u1.divide new_id n cb with
    | Except.error e => Except.error e
    | Except.ok pc =>
      match pc.1.merge pc.2 cb with
      | Except.error e => Except.error e
      | Except.ok u3 => Except.ok u3

/-- A UPL holding a cart lock (concrete input for the lock-discipline
claims). -/
def sampleLockedUpl : Upl :=
  { Upl.default with id := "18", kind := Kind.Sku 7, lock := Lock.Cart "c1" }

/-- Spec §8 scenario 2: a divisible `Sku` with `sku_divisible_amount = 1000`,
`sku_price_net = 1000`, `procurement_net_price_sku = 600`, VAT 27%. -/
def sampleDivisibleUpl : Upl :=
  { Upl.default with
      id := "18", product_id := 1, product_unit := "ml", kind := Kind.Sku 7,
      sku_divisible := true, sku_divisible_amount := 1000,
      sku_price_net := 1000, price_net := 1000, price_gross := 1270,
      procurement_id := 1, procurement_net_price_sku := 600 }

/-- A bulk of three pieces (concrete input for the split claims). -/
def sampleBulkUpl : Upl :=
  { Upl.default with
      id := "18", product_id := 1, product_unit := "db", kind := Kind.BulkSku 42 3,
      sku_price_net := 100, price_net := 100, price_gross := 127 }

/-- An already-opened parent with 1000 remaining subunits and no successors
(concrete registry parent for the service-level divide). -/
def sampleOpenedParent : Upl :=
  { Upl.default with
      id := "18", product_id := 1, product_unit := "ml",
      kind := Kind.OpenedSku 7 1000 [],
      sku_divisible := true, sku_divisible_amount := 1000,
      sku_price_net := 1000, price_net := 1000, price_gross := 1270,
      procurement_id := 1, procurement_net_price_sku := 600,
      procurement_net_price := 600 }

/-- A plain UPL already registered under id `"26"` — the id a divide
request will try to give its child. -/
def sampleBlocker : Upl :=
  { Upl.default with id := "26", kind := Kind.Sku 9 }

/-- Registry state for the service-level divide: the parent and a UPL that
already occupies the child id. -/
def sampleDivideState : UplService :=
  { upls := [sampleOpenedParent, sampleBlocker], archive := [] }

/-- An opened parent with 750 remaining and successor `"26"` (concrete
merge parent). -/
def sampleMergeParent : Upl :=
  { Upl.default with
      id := "18", kind := Kind.OpenedSku 7 750 ["26"],
      sku_divisible := true, sku_divisible_amount := 1000,
      sku_price_net := 1000, procurement_net_price_sku := 600 }

/-- A depreciated derived child of `sampleMergeParent` (the depreciation
that `merge` fails to check). -/
def sampleDepreciatedChild : Upl :=
  { Upl.default with
      id := "26", kind := Kind.DerivedProduct "18" 7 250,
      sku_divisible := true, sku_divisible_amount := 1000,
      sku_price_net := 1000, procurement_net_price_sku := 600,
      depreciation := some (Depreciation.new 1 "sérült csomagolás") }

/-- A UPL resting at the cart location `"c1"` while holding a foreign
`Delivery` lock (concrete input against close-cart). -/
def sampleForeignLockAtCart : Upl :=
  { Upl.default with
      id := "18", kind := Kind.Sku 7,
      location := Location.Cart "c1", lock := Lock.Delivery 5 }

/-- Registry state exercising close-cart on `sampleForeignLockAtCart`. -/
def sampleCloseCartState : UplService :=
  { upls := [sampleForeignLockAtCart], archive := [] }

/-- A cart-locked UPL at stock (close-cart witness input `A`). -/
def sampleCartLockedA : Upl :=
  { Upl.default with
      id := "18", kind := Kind.Sku 7,
      location := Location.Stock 1, lock := Lock.Cart "c1" }

/-- A UPL already located at the cart, unlocked (close-cart witness
input `B`). -/
def sampleAtCartB : Upl :=
  { Upl.default with
      id := "26", kind := Kind.Sku 7,
      location := Location.Cart "c1", lock := Lock.None }

/-- Registry state for the close-cart witness: `A` locked to cart `"c1"`,
`B` already at the cart location. -/
def sampleCloseCartState2 : UplService :=
  { upls := [sampleCartLockedA, sampleAtCartB], archive := [] }

/-- A depreciated UPL whose procurement value exceeds the special price
about to be set (concrete underflow input). -/
def sampleDepreciatedUpl : Upl :=
  { Upl.default with
      id := "18", kind := Kind.Sku 7,
      procurement_net_price := 150, procurement_net_price_sku := 150,
      sku_price_net := 200, price_net := 200,
      depreciation := some (Depreciation.new 1 "sérült") }

/-- An opened UPL sold at a loss: the recomputed retail share (25) is below
the recomputed procurement share (150). -/
def sampleLossUpl : Upl :=
  { Upl.default with
      id := "18", kind := Kind.OpenedSku 7 250 [],
      sku_divisible := true, sku_divisible_amount := 1000,
      sku_price_net := 100, procurement_net_price_sku := 600 }

/-! ## Decimal digit lemmas for the id scheme -/

theorem digitsLE_eq_digits : ∀ (fuel n : Nat), n ≤ fuel → digitsLE fuel n = Nat.digits 10 n := by
  intro fuel
  induction fuel with
  | zero =>
    intro n hn
    interval_cases n
    rw [Nat.digits_zero]
    decide
  | succ fuel ih =>
    intro n hn
    match n with
    | 0 =>
      rw [Nat.digits_zero]
      rfl
    | n + 1 =>
      have hdiv : (n + 1) / 10 ≤ fuel := by
        have h2 : (n + 1) / 10 < n + 1 := Nat.div_lt_self (Nat.succ_pos n) (by norm_num)
        omega
      rw [Nat.digits_def' (show (1 : Nat) < 10 by norm_num) (Nat.succ_pos n)]
      show (n + 1) % 10 :: digitsLE fuel ((n + 1) / 10) = _
      rw [ih _ hdiv]

theorem natDigitsBE_eq (n : Nat) (h : n ≠ 0) :
    natDigitsBE n = (Nat.digits 10 n).reverse := by
  unfold natDigitsBE
  rw [if_neg h, digitsLE_eq_digits n n le_rfl]

theorem natDigitsBE_mem_lt (n d : Nat) (hd : d ∈ natDigitsBE n) : d < 10 := by
  by_cases h : n = 0
  · subst h
    have h0 : natDigitsBE 0 = [0] := rfl
    rw [h0, List.mem_singleton] at hd
    omega
  · rw [natDigitsBE_eq n h, List.mem_reverse] at hd
    exact Nat.digits_lt_base (by norm_num) hd

theorem ofDigits_natDigitsBE (n : Nat) :
    Nat.ofDigits 10 (natDigitsBE n).reverse = n := by
  by_cases h : n = 0
  · subst h
    rfl
  · rw [natDigitsBE_eq n h, List.reverse_reverse, Nat.ofDigits_digits]

theorem natDigitsBE_length_le (n : Nat) (h : n < 100000) :
    (natDigitsBE n).length ≤ 5 := by
  by_cases h0 : n = 0
  · subst h0
    decide
  · rw [natDigitsBE_eq n h0, List.length_reverse]
    by_contra hlen
    push_neg at hlen
    have h1 : 10 ^ (Nat.digits 10 n).length ≤ 10 * n :=
      Nat.base_pow_length_digits_le 10 n (by norm_num) h0
    have h2 : (10 : Nat) ^ 6 ≤ 10 ^ (Nat.digits 10 n).length :=
      Nat.pow_le_pow_right (by norm_num) (by omega)
    have h3 : (10 : Nat) ^ 6 = 1000000 := by norm_num
    omega

theorem calculate_check_from_vec_spec (l : List Nat) :
    1 ≤ (calculate_check_from_vec l).1 ∧ (calculate_check_from_vec l).1 ≤ 9 ∧
    (calculate_check_from_vec l).2 ≤ 9 ∧
    ((calculate_check_from_vec l).2 = 0 → (calculate_check_from_vec l).1 = 9) ∧
    (0 < (calculate_check_from_vec l).2 →
      (calculate_check_from_vec l).1 = 10 - (calculate_check_from_vec l).2) := by
  have h10 : (l.reverse.enum.foldl (fun acc p => acc + p.2 * (p.1 + 1)) 0) % 10 < 10 :=
    Nat.mod_lt _ (by norm_num)
  simp only [calculate_check_from_vec]
  split_ifs with hr
  · simp
  · dsimp only
    omega

theorem uplIdNew_digits (n cf cl : Nat) (h : n < 100000)
    (hpair : calculate_check n = (cf, cl)) :
    UplId.new n = cf * 10 ^ ((natDigitsBE n).length + 1) + n * 10 + cl ∧
    natDigitsBE (UplId.new n) = cf :: (natDigitsBE n ++ [cl]) := by
  have hspec := calculate_check_from_vec_spec (natDigitsBE n)
  have hck : calculate_check_from_vec (natDigitsBE n) = (cf, cl) := hpair
  rw [hck] at hspec
  obtain ⟨hcf1, hcf9, hcl9, _, _⟩ := hspec
  have hk5 : (natDigitsBE n).length ≤ 5 := natDigitsBE_length_le n h
  have hpow : (10 : Nat) ^ ((natDigitsBE n).length + 1) ≤ 10 ^ 6 :=
    Nat.pow_le_pow_right (by norm_num) (by omega)
  have hpow6 : (10 : Nat) ^ 6 = 1000000 := by norm_num
  have hmul : cf * 10 ^ ((natDigitsBE n).length + 1) ≤ 9 * 10 ^ 6 :=
    Nat.mul_le_mul hcf9 hpow
  have hvlt : cf * 10 ^ ((natDigitsBE n).length + 1) + n * 10 + cl < 2 ^ 32 := by
    have h32 : (2 : Nat) ^ 32 = 4294967296 := by norm_num
    omega
  have hval : UplId.new n = cf * 10 ^ ((natDigitsBE n).length + 1) + n * 10 + cl := by
    simp only [UplId.new, hpair]
    rw [if_pos hvlt]
  refine ⟨hval, ?_⟩
  have hof : cf * 10 ^ ((natDigitsBE n).length + 1) + n * 10 + cl =
      Nat.ofDigits 10 (cl :: ((natDigitsBE n).reverse ++ [cf])) := by
    rw [Nat.ofDigits_cons, Nat.ofDigits_append, ofDigits_natDigitsBE,
      Nat.ofDigits_singleton, List.length_reverse]
    ring
  have hmemlt : ∀ x ∈ cl :: ((natDigitsBE n).reverse ++ [cf]), x < 10 := by
    intro x hx
    rcases List.mem_cons.mp hx with hx | hx
    · omega
    · rcases List.mem_append.mp hx with hx | hx
      · exact natDigitsBE_mem_lt n x (List.mem_reverse.mp hx)
      · rcases List.mem_singleton.mp hx with rfl
        omega
  have hlast : ∀ (hne : cl :: ((natDigitsBE n).reverse ++ [cf]) ≠ []),
      (cl :: ((natDigitsBE n).reverse ++ [cf])).getLast hne ≠ 0 := by
    intro hne
    have hsh : cl :: ((natDigitsBE n).reverse ++ [cf]) =
        (cl :: (natDigitsBE n).reverse) ++ [cf] := by simp
    have h1 : (cl :: ((natDigitsBE n).reverse ++ [cf])).getLast? = some cf := by
      rw [hsh]
      exact List.getLast?_concat _
    rw [List.getLast?_eq_getLast _ hne] at h1
    have h2 := Option.some.inj h1
    omega
  have hdig : Nat.digits 10 (UplId.new n) = cl :: ((natDigitsBE n).reverse ++ [cf]) := by
    rw [hval, hof]
    exact Nat.digits_ofDigits 10 (by norm_num) _ hmemlt hlast
  have hne0 : UplId.new n ≠ 0 := by
    have hp : 0 < (10 : Nat) ^ ((natDigitsBE n).length + 1) :=
      Nat.pos_pow_of_pos _ (by norm_num)
    have hle : 10 ^ ((natDigitsBE n).length + 1) ≤ cf * 10 ^ ((natDigitsBE n).length + 1) :=
      Nat.le_mul_of_pos_left _ (by omega)
    omega
  rw [natDigitsBE_eq _ hne0, hdig]
  simp

/-! ## C8 — Luhn round-trip -/

/-- C8.  For every `n < 10^5`, validating the id generated from `n`
succeeds: `is_valid (UplId.new n) = true`. -/
theorem uplid_new_is_valid (n : Nat) (h : n < 100000) :
    is_valid (UplId.new n) = true := by
  rcases hpair : calculate_check n with ⟨cf, cl⟩
  obtain ⟨_, hdig⟩ := uplIdNew_digits n cf cl h hpair
  unfold is_valid
  rw [hdig]
  show (match (natDigitsBE n ++ [cl]).getLast? with
    | some lastDigit =>
      decide (calculate_check_from_vec (natDigitsBE n ++ [cl]).dropLast = (cf, lastDigit))
    | none => false) = true
  rw [List.getLast?_concat]
  show decide (calculate_check_from_vec (natDigitsBE n ++ [cl]).dropLast = (cf, cl)) = true
  rw [List.dropLast_concat]
  have hck : calculate_check_from_vec (natDigitsBE n) = (cf, cl) := hpair
  simp [hck]

/-- C8 witness: `n = 49` is in range and its generated id validates. -/
theorem uplid_new_is_valid_witness : 49 < 100000 ∧ is_valid (UplId.new 49) = true :=
  ⟨by decide, uplid_new_is_valid 49 (by decide)⟩

/-! ## C7 — the two-digit envelope of `UplId::new` -/

/-- C7 counterexample: at `n = 1` the generated id is `119`; its last
decimal digit (the check digit) is `9`, but its first decimal digit is `1`,
not `9 - 9 = 0` as the claim requires. -/
theorem uplid_first_digit_cex :
    ¬ ((natDigitsBE (UplId.new 1)).head? = some (9 - (UplId.new 1) % 10)) := by
  decide

/-- C7 amended: for every `n < 10^5`, the id generated from `n` has the
check digit `cl = (calculate_check n).2` as its last decimal digit, and its
first decimal digit is `(calculate_check n).1`, which equals `9` when the
check digit is `0` and `10 - cl` (not `9 - cl`) otherwise. -/
theorem uplid_envelope (n : Nat) (h : n < 100000) :
    (UplId.new n) % 10 = (calculate_check n).2 ∧
    (natDigitsBE (UplId.new n)).head? = some (calculate_check n).1 ∧
    ((calculate_check n).2 = 0 → (calculate_check n).1 = 9) ∧
    (0 < (calculate_check n).2 →
      (calculate_check n).1 = 10 - (calculate_check n).2) := by
  rcases hpair : calculate_check n with ⟨cf, cl⟩
  obtain ⟨hval, hdig⟩ := uplIdNew_digits n cf cl h hpair
  have hspec := calculate_check_from_vec_spec (natDigitsBE n)
  have hck : calculate_check_from_vec (natDigitsBE n) = (cf, cl) := hpair
  rw [hck] at hspec
  obtain ⟨hcf1, hcf9, hcl9, h0, hpos⟩ := hspec
  refine ⟨?_, ?_, h0, hpos⟩
  · have hsplit : UplId.new n =
        (cf * 10 ^ (natDigitsBE n).length + n) * 10 + cl := by
      rw [hval, pow_succ]
      ring
    omega
  · rw [hdig]
    rfl

/-- C7 witness: at `n = 49` the generated id `7493` ends with check digit
`3` and starts with `7 = 10 - 3`. -/
theorem uplid_envelope_witness :
    49 < 100000 ∧
    ((UplId.new 49) % 10 = (calculate_check 49).2 ∧
    (natDigitsBE (UplId.new 49)).head? = some (calculate_check 49).1 ∧
    ((calculate_check 49).2 = 0 → (calculate_check 49).1 = 9) ∧
    (0 < (calculate_check 49).2 →
      (calculate_check 49).1 = 10 - (calculate_check 49).2)) :=
  ⟨by decide, uplid_envelope 49 (by decide)⟩

/-! ## C1 — lock discipline -/

/-- C1.  The code violates the lock discipline: because `Lock::is_none`
returns `true` for every variant, `Upl::lock` succeeds on an
already-locked UPL and silently overwrites the lock.  Concretely, locking
a UPL that holds `Cart("c1")` to `Delivery(1)` returns `Ok` with the lock
replaced; and in general `lock` succeeds on every UPL whatever its current
lock is. -/
theorem upl_lock_always_succeeds :
    ((sampleLockedUpl.lock_upl (Lock.Delivery 1) 1).map Upl.lock =
      Except.ok (Lock.Delivery 1)) ∧
    (∀ (u : Upl) (l : Lock) (cb : Nat),
      u.lock_upl l cb =
        Except.ok (({ u with lock := l }).set_history
          (UplHistoryItem.new (CreatedBy.Uid cb) (UplHistoryEvent.Locked l)))) := by
  constructor
  · rfl
  · intro u l cb
    have hcan : u.can_lock = true := by
      unfold Upl.can_lock Lock.is_none
      cases u.lock <;> rfl
    unfold Upl.lock_upl
    rw [hcan]
    rfl

/-! ## C3 — Sku/BulkSku price recomputation -/

/-- C3.  Evaluating the code at the failing input: a plain `Sku` created
with `sku_price_net = 100` and `procurement_net_price_sku = 600` ends up
with `price_net = 100` (as claimed) but `procurement_net_price = 0`, not
`600` — `recalculate_prices` never writes `procurement_net_price` in the
`Sku`/`BulkSku` branches — and consequently `margin_net = 100`, the whole
retail price. -/
theorem new_sku_procurement_net_price_zero :
    (Upl.new "18" 1 "db" 7 1 1 false 100 VAT.V27 1 600 (Location.Stock 1)
        none false 1).map
      (fun u => (u.price_net, u.procurement_net_price, u.margin_net)) =
      Except.ok (100, 0, 100) ∧ (0 : Nat) ≠ 600 := by
  constructor
  · rfl
  · decide

/-! ## Frame lemmas: `recalculate_prices` only touches the price fields -/

theorem recalc_id (u : Upl) : (u.recalculate_prices).id = u.id := by
  rcases hk : u.kind <;> simp [Upl.recalculate_prices, hk]

theorem recalc_kind (u : Upl) : (u.recalculate_prices).kind = u.kind := by
  rcases hk : u.kind <;> simp [Upl.recalculate_prices, hk]

theorem recalc_lock (u : Upl) : (u.recalculate_prices).lock = u.lock := by
  rcases hk : u.kind <;> simp [Upl.recalculate_prices, hk]

theorem recalc_depreciation (u : Upl) :
    (u.recalculate_prices).depreciation = u.depreciation := by
  rcases hk : u.kind <;> simp [Upl.recalculate_prices, hk]

/-! ## C2 — divide/merge round-trip -/

/-- Success shape of `Upl::merge`: with an undepreciated unlocked opened
parent and an unlocked derived child pointing at it, `merge` adds the
child's amount to the remaining amount, leaving the successors list as it
was. -/
theorem merge_ok (u c : Upl) (cb sku a dsku m : Nat) (succ : List String)
    (hdep : u.depreciation = none) (hul : u.lock = Lock.None) (hcl : c.lock = Lock.None)
    (hk : u.kind = Kind.OpenedSku sku a succ)
    (hck : c.kind = Kind.DerivedProduct u.id dsku m) :
    u.merge c cb =
      Except.ok (({ u with kind := Kind.OpenedSku sku (a + m) succ }).recalculate_prices) := by
  simp [Upl.merge, Upl.is_depreciated, Upl.has_lock, hdep, hul, hcl, hk, hck]

/-- C2 counterexample: on the spec's own scenario values
(`sku_divisible_amount = 1000`, `n = 250`, fresh id `"26"`), the sequence
`open; divide; merge` leaves the parent `OpenedSku` with remaining `1000`
— but its successors list still contains `"26"`: `merge` never removes the
successor entry, so the claim's "successors list does not contain new_id"
is false. -/
theorem divide_merge_successor_retained_cex :
    (openDivideMerge sampleDivisibleUpl "26" 250 1).map Upl.kind =
      Except.ok (Kind.OpenedSku 7 1000 ["26"]) ∧
    "26" ∈ (["26"] : List String) := by
  constructor
  · rfl
  · decide

/-- C2 amended: for every divisible, unlocked, undepreciated `Sku` UPL and
every `0 < n < sku_divisible_amount` with a valid fresh id, the sequence
`open; divide; merge` succeeds and leaves the UPL an `OpenedSku` whose
remaining amount equals `sku_divisible_amount` — and whose successors list
still contains (indeed is exactly) `[new_id]`. -/
theorem open_divide_merge_roundtrip (u : Upl) (sku n cb : Nat) (new_id : String)
    (hk : u.kind = Kind.Sku sku) (hdv : u.sku_divisible = true)
    (hd1 : 1 < u.sku_divisible_amount)
    (hl : u.lock = Lock.None) (hdep : u.depreciation = none)
    (hn0 : 0 < n) (hnd : n < u.sku_divisible_amount)
    (hluhn : luhn_check new_id = true) :
    ∃ u3, openDivideMerge u new_id n cb = Except.ok u3 ∧
      u3.kind = Kind.OpenedSku sku u.sku_divisible_amount [new_id] := by
  have h1 : u.open_upl =
      Except.ok { u with kind := Kind.OpenedSku sku u.sku_divisible_amount [] } := by
    simp [Upl.open_upl, Upl.is_divisible, Upl.has_lock, Upl.get_divisible_amount,
      hk, hdv, hl, hd1]
  have h2 : ({ u with kind := Kind.OpenedSku sku u.sku_divisible_amount [] } : Upl).divide
        new_id n cb =
      Except.ok
        (({ u with kind := (Kind.OpenedSku sku (u.sku_divisible_amount - n) [new_id]) } : Upl).recalculate_prices,
         ({ u with id := new_id, created_by := cb, created_at := 0, kind := (Kind.DerivedProduct u.id sku n) } : Upl).recalculate_prices) := by
    simp [Upl.divide, Upl.has_lock, hl, hluhn, Nat.pos_iff_ne_zero.mp hn0,
      Nat.not_le.mpr hnd]
  have h3 := merge_ok
    (({ u with kind := (Kind.OpenedSku sku (u.sku_divisible_amount - n) [new_id]) } : Upl).recalculate_prices)
    (({ u with id := new_id, created_by := cb, created_at := 0, kind := (Kind.DerivedProduct u.id sku n) } : Upl).recalculate_prices)
    cb sku (u.sku_divisible_amount - n) sku n [new_id]
    (by rw [recalc_depreciation]; exact hdep)
    (by rw [recalc_lock]; exact hl)
    (by rw [recalc_lock]; exact hl)
    (by rw [recalc_kind])
    (by rw [recalc_kind, recalc_id])
  refine ⟨(({ (({ u with kind := (Kind.OpenedSku sku (u.sku_divisible_amount - n) [new_id]) } : Upl).recalculate_prices) with kind := (Kind.OpenedSku sku (u.sku_divisible_amount - n + n) [new_id]) }).recalculate_prices), ?_, ?_⟩
  · unfold openDivideMerge
    rw [h1]
    show (match ({ u with kind := Kind.OpenedSku sku u.sku_divisible_amount [] } : Upl).divide
        new_id n cb with
      | Except.error e => Except.error e
      | Except.ok pc =>
        match pc.1.merge pc.2 cb with
        | Except.error e => Except.error e
        | Except.ok u3 => Except.ok u3) = _
    rw [h2]
    show (match (({ u with kind := (Kind.OpenedSku sku (u.sku_divisible_amount - n) [new_id]) } : Upl).recalculate_prices).merge
        (({ u with id := new_id, created_by := cb, created_at := 0, kind := (Kind.DerivedProduct u.id sku n) } : Upl).recalculate_prices) cb with
      | Except.error e => Except.error e
      | Except.ok u3 => Except.ok u3) = _
    rw [h3]
  · rw [recalc_kind]
    have hsum : u.sku_divisible_amount - n + n = u.sku_divisible_amount := by omega
    simp [hsum]

/-- C2 witness: the amended round-trip applied to the spec's scenario-2
UPL with `n = 250` and fresh id `"26"`. -/
theorem open_divide_merge_roundtrip_witness :
    ∃ u3, openDivideMerge sampleDivisibleUpl "26" 250 1 = Except.ok u3 ∧
      u3.kind = Kind.OpenedSku 7 sampleDivisibleUpl.sku_divisible_amount ["26"] :=
  open_divide_merge_roundtrip sampleDivisibleUpl 7 250 1 "26" rfl rfl
    (by decide) rfl rfl (by decide) (by decide) (by decide)

/-! ## C6 — merge and depreciation -/

/-- C6 counterexample: `sampleDepreciatedChild` is depreciated, yet merging
it back into `sampleMergeParent` succeeds and adds its amount (750 + 250 =
1000) — the claim says the merge must fail with the parent unchanged. -/
theorem merge_ignores_child_depreciation_cex :
    (sampleMergeParent.merge sampleDepreciatedChild 1).map Upl.kind =
      Except.ok (Kind.OpenedSku 7 1000 ["26"]) ∧
    sampleDepreciatedChild.depreciation.isSome = true := by
  constructor
  · rfl
  · rfl

/-- C6 amended: `merge` fails when the **parent** is depreciated (with the
parent untouched, since the error is returned before any mutation), but the
child's depreciation is never checked: whenever the parent is an
undepreciated, unlocked `OpenedSku` and the child an unlocked
`DerivedProduct` pointing at it — depreciated or not — the merge succeeds
and adds the child's amount to the remaining amount. -/
theorem merge_depreciation_guards :
    (∀ (u c : Upl) (cb : Nat), u.depreciation.isSome = true →
      u.merge c cb =
        Except.error "A szülő UPL selejtezett. Selejtezett termékbe nem tudunk vissza tenni") ∧
    (∀ (u c : Upl) (cb sku a dsku m : Nat) (succ : List String),
      u.depreciation = none → u.lock = Lock.None → c.lock = Lock.None →
      u.kind = Kind.OpenedSku sku a succ →
      c.kind = Kind.DerivedProduct u.id dsku m →
      ∃ u3, u.merge c cb = Except.ok u3 ∧ u3.kind = Kind.OpenedSku sku (a + m) succ) := by
  constructor
  · intro u c cb h
    simp [Upl.merge, Upl.is_depreciated, h]
  · intro u c cb sku a dsku m succ hdep hul hcl hk hck
    refine ⟨_, merge_ok u c cb sku a dsku m succ hdep hul hcl hk hck, ?_⟩
    rw [recalc_kind]

/-- C6 witness: the parent-depreciation guard fires on
`sampleDepreciatedUpl`, and the merge of the depreciated
`sampleDepreciatedChild` into `sampleMergeParent` goes through. -/
theorem merge_depreciation_guards_witness :
    (sampleDepreciatedUpl.merge sampleAtCartB 1 =
      Except.error "A szülő UPL selejtezett. Selejtezett termékbe nem tudunk vissza tenni") ∧
    (∃ u3, sampleMergeParent.merge sampleDepreciatedChild 1 = Except.ok u3 ∧
      u3.kind = Kind.OpenedSku 7 (750 + 250) ["26"]) :=
  ⟨merge_depreciation_guards.1 sampleDepreciatedUpl sampleAtCartB 1 (by rfl),
   merge_depreciation_guards.2 sampleMergeParent sampleDepreciatedChild 1 7 750 7 250 ["26"]
     rfl rfl rfl rfl rfl⟩

/-! ## C4 — kind well-formedness -/

theorem split_wf (u : Upl) (nid : String) (piece cb : Nat) :
    wfOkPair (u.split nid piece cb) = true := by
  unfold Upl.split
  split
  · rfl
  · split
    · rfl
    · split
      · rfl
      · split
        · next h0 hlock hluhn sku pieces =>
          split
          · next hp =>
            by_cases hp1 : piece = 1 <;>
              simp [hp1, wfOkPair, KindWFb, recalc_kind, Upl.set_history] <;>
              omega
          · rfl
        · rfl

theorem divide_wf (u : Upl) (nid : String) (amt cb : Nat) :
    wfOkPair (u.divide nid amt cb) = true := by
  unfold Upl.divide
  split
  · rfl
  · split
    · rfl
    · split
      · rfl
      · split
        · next h0 hlock hluhn sku a succ =>
          split
          · rfl
          · next hle =>
            simp [wfOkPair, KindWFb, recalc_kind]
            omega
        · rfl

theorem splitBulkStep_fold_wf (cb : Nat) :
    ∀ (ids : List String) (p : Upl) (acc : List Upl),
      KindWFb p.kind = true → (acc.all fun c => KindWFb c.kind) = true →
      KindWFb ((ids.foldl (Upl.splitBulkStep cb) (p, acc)).1.kind) = true ∧
      (((ids.foldl (Upl.splitBulkStep cb) (p, acc)).2.all fun c => KindWFb c.kind)) = true := by
  intro ids
  induction ids with
  | nil => intro p acc hp hacc; exact ⟨hp, hacc⟩
  | cons id rest ih =>
    intro p acc hp hacc
    rw [List.foldl_cons]
    rcases hstep : p.split id 1 cb with e | pc
    · have he : Upl.splitBulkStep cb (p, acc) id = (p, acc) := by
        simp [Upl.splitBulkStep, hstep]
      rw [he]
      exact ih p acc hp hacc
    · have hwf := split_wf p id 1 cb
      rw [hstep] at hwf
      simp only [wfOkPair, Bool.and_eq_true] at hwf
      have he : Upl.splitBulkStep cb (p, acc) id = (pc.1, acc ++ [pc.2]) := by
        simp [Upl.splitBulkStep, hstep]
      rw [he]
      apply ih
      · exact hwf.1
      · simp [List.all_append, hacc, hwf.2]

theorem split_bulk_wf (u : Upl) (ids : List String) (cb : Nat) :
    wfOkBulk (u.split_bulk ids cb) = true := by
  unfold Upl.split_bulk
  split
  · rfl
  · split
    · rfl
    · split
      · next hany hlock sku pieces heq =>
        split
        · rfl
        · next hlen =>
          have hwfu : KindWFb u.kind = true := by
            simp [heq, KindWFb]
            omega
          have hfold := splitBulkStep_fold_wf cb ids u [] hwfu (by rfl)
          simp only [wfOkBulk, Bool.and_eq_true]
          exact hfold
      · rfl

theorem new_wf (upl_id : String) (product_id : Nat) (product_unit : String)
    (sku piece sku_divisible_amount : Nat) (sku_divisible : Bool)
    (sku_price_net : Nat) (sku_vat : VAT) (procurement_id procurement_net_price_sku : Nat)
    (location : Location) (best_before : Option Nat) (is_opened : Bool) (created_by : Nat)
    (h : is_opened = true → 1 ≤ piece) :
    wfOk (Upl.new upl_id product_id product_unit sku piece sku_divisible_amount
      sku_divisible sku_price_net sku_vat procurement_id procurement_net_price_sku
      location best_before is_opened created_by) = true := by
  unfold Upl.new
  split
  · rfl
  · by_cases ho : is_opened = true
    · have hp := h ho
      simp [ho, wfOk, recalc_kind, KindWFb]
      omega
    · have ho2 : is_opened = false := by
        cases is_opened
        · rfl
        · exact absurd rfl ho
      by_cases hp2 : 1 < piece
      · simp [ho2, hp2, wfOk, recalc_kind, KindWFb]
        omega
      · simp [ho2, hp2, wfOk, recalc_kind, KindWFb]

theorem open_wf (u : Upl) : wfOk u.open_upl = true := by
  unfold Upl.open_upl
  split
  · rfl
  · next hdiv =>
    split
    · rfl
    · split
      · rfl
      · split
        · next sku heq =>
          have hdiv2 : u.is_divisible = true := by
            revert hdiv
            cases u.is_divisible <;> simp
          rw [Upl.is_divisible, heq] at hdiv2
          simp only [Bool.and_eq_true, decide_eq_true_eq] at hdiv2
          simp [wfOk, KindWFb]
          omega
        · rfl

theorem close_wf (u : Upl) : wfOk u.close = true := by
  unfold Upl.close
  split
  · rfl
  · split
    · split
      · rfl
      · rfl
    · rfl

theorem merge_wf (u c : Upl) (cb : Nat) (h : KindWFb u.kind = true) :
    wfOk (u.merge c cb) = true := by
  unfold Upl.merge
  split
  · rfl
  · split
    · rfl
    · split
      · rfl
      · split
        · next sku a succ heq =>
          split
          · split
            · rfl
            · rw [heq, KindWFb] at h
              simp only [decide_eq_true_eq] at h
              simp [wfOk, recalc_kind, KindWFb]
              omega
          · rfl
        · rfl
/-- C4 counterexample: splitting `2` pieces off a three-piece bulk
succeeds and leaves the parent as `BulkSku` with `upl_pieces = 1`,
violating the claimed invariant `BulkSku.pieces ≥ 2`. -/
theorem split_leaves_singleton_bulk_cex :
    (sampleBulkUpl.split "26" 2 1).map (fun pc => pc.1.kind) =
      Except.ok (Kind.BulkSku 42 1) ∧ ¬ (2 ≤ (1 : Nat)) := by
  constructor
  · rfl
  · decide

/-- C4 amended: the operations maintain only the weaker shape `KindWFb`
(`BulkSku.pieces ≥ 1`, `OpenedSku.remaining ≥ 1`,
`DerivedProduct.amount ≥ 1`): `split` may leave the parent bulk with a
single piece, and `new` establishes `OpenedSku.remaining ≥ 1` only when an
opened UPL is requested with `piece ≥ 1` (the constructor performs no such
check).  Under those provisos every listed operation preserves `KindWFb`
(for `merge`, given a well-formed parent; the other operations need no
well-formedness hypothesis at all because their guards imply it). -/
theorem kind_weak_wf_preserved :
    (∀ (upl_id : String) (product_id : Nat) (product_unit : String)
       (sku piece sku_divisible_amount : Nat) (sku_divisible : Bool)
       (sku_price_net : Nat) (sku_vat : VAT)
       (procurement_id procurement_net_price_sku : Nat)
       (location : Location) (best_before : Option Nat) (is_opened : Bool)
       (created_by : Nat),
       (is_opened = true → 1 ≤ piece) →
       wfOk (Upl.new upl_id product_id product_unit sku piece
         sku_divisible_amount sku_divisible sku_price_net sku_vat
         procurement_id procurement_net_price_sku location best_before
         is_opened created_by) = true) ∧
    (∀ (u : Upl) (nid : String) (piece cb : Nat),
       wfOkPair (u.split nid piece cb) = true) ∧
    (∀ (u : Upl) (ids : List String) (cb : Nat),
       wfOkBulk (u.split_bulk ids cb) = true) ∧
    (∀ u : Upl, wfOk u.open_upl = true) ∧
    (∀ u : Upl, wfOk u.close = true) ∧
    (∀ (u : Upl) (nid : String) (amt cb : Nat),
       wfOkPair (u.divide nid amt cb) = true) ∧
    (∀ (u c : Upl) (cb : Nat), KindWFb u.kind = true →
       wfOk (u.merge c cb) = true) :=
  ⟨new_wf, split_wf, split_bulk_wf, open_wf, close_wf, divide_wf, merge_wf⟩

/-- C4 witness: the constructor part at an opened two-piece UPL and the
merge part at the concrete opened parent. -/
theorem kind_weak_wf_preserved_witness :
    wfOk (Upl.new "18" 1 "ml" 7 2 10 true 100 VAT.V27 1 60 (Location.Stock 1)
      none true 1) = true ∧
    wfOk (sampleMergeParent.merge sampleDepreciatedChild 1) = true :=
  ⟨kind_weak_wf_preserved.1 "18" 1 "ml" 7 2 10 true 100 VAT.V27 1 60
      (Location.Stock 1) none true 1 (fun _ => by decide),
   kind_weak_wf_preserved.2.2.2.2.2.2 sampleMergeParent sampleDepreciatedChild 1
      (by rfl)⟩

/-! ## C5 — error atomicity of the service layer -/

theorem findId_some_id (l : List Upl) (id : String) (u : Upl)
    (h : findId l id = some u) : u.id = id := by
  have hp := List.find?_some h
  exact of_decide_eq_true hp

theorem divide_ok_parent_id (u : Upl) (nid : String) (amt cb : Nat) (pc : Upl × Upl)
    (h : u.divide nid amt cb = Except.ok pc) : pc.1.id = u.id := by
  unfold Upl.divide at h
  split at h
  · exact absurd h (by simp)
  · split at h
    · exact absurd h (by simp)
    · split at h
      · exact absurd h (by simp)
      · split at h
        · split at h
          · exact absurd h (by simp)
          · injection h with h2
            subst h2
            simp [recalc_id]
        · exact absurd h (by simp)

theorem split_ok_parent_id (u : Upl) (nid : String) (piece cb : Nat) (pc : Upl × Upl)
    (h : u.split nid piece cb = Except.ok pc) : pc.1.id = u.id := by
  unfold Upl.split at h
  split at h
  · exact absurd h (by simp)
  · split at h
    · exact absurd h (by simp)
    · split at h
      · exact absurd h (by simp)
      · split at h
        · split at h
          · injection h with h2
            subst h2
            simp [recalc_id, Upl.set_history]
          · exact absurd h (by simp)
        · exact absurd h (by simp)

theorem updatePack_filter (l : List Upl) (id : String) (w : Upl) (hw : w.id = id) :
    (updatePack l id (fun _ => w)).filter (fun u => u.id ≠ id) =
      l.filter (fun u => u.id ≠ id) := by
  induction l with
  | nil => rfl
  | cons a t ih =>
    by_cases ha : a.id = id
    · simp [updatePack, List.filter_cons, ha, hw] at ih ⊢
      exact ih
    · simp [updatePack, List.filter_cons, ha] at ih ⊢
      exact ih

theorem service_divide_error_frame (s : UplService) (upl nid : String) (amt cb : Nat)
    (herr : (UplService.divide s upl nid amt cb).2.isOk = false) :
    (UplService.divide s upl nid amt cb).1.archive = s.archive ∧
    ((UplService.divide s upl nid amt cb).1.upls.filter (fun u => u.id ≠ upl) =
      s.upls.filter (fun u => u.id ≠ upl)) := by
  rcases hfind : findId s.upls upl with _ | parent
  · simp [UplService.divide, hfind]
  · rcases hdiv : parent.divide nid amt cb with e | pc
    · simp [UplService.divide, hfind, hdiv]
    · rcases hins : insertPack (updatePack s.upls upl (fun _ => pc.1)) pc.2 with e2 | upls2
      · have hid : pc.1.id = upl := by
          rw [divide_ok_parent_id parent nid amt cb pc hdiv]
          exact findId_some_id s.upls upl parent hfind
        constructor
        · simp [UplService.divide, hfind, hdiv, hins]
        · simp only [UplService.divide, hfind, hdiv, hins]
          exact updatePack_filter s.upls upl pc.1 hid
      · exfalso
        have : (UplService.divide s upl nid amt cb).2 = Except.ok pc.1 := by
          simp [UplService.divide, hfind, hdiv, hins]
        rw [this] at herr
        exact Bool.noConfusion herr

theorem service_split_error_frame (s : UplService) (upl nid : String) (piece cb : Nat)
    (herr : (UplService.split s upl nid piece cb).2.isOk = false) :
    (UplService.split s upl nid piece cb).1.archive = s.archive ∧
    ((UplService.split s upl nid piece cb).1.upls.filter (fun u => u.id ≠ upl) =
      s.upls.filter (fun u => u.id ≠ upl)) := by
  rcases hfind : findId s.upls upl with _ | parent
  · simp [UplService.split, hfind]
  · rcases hsp : parent.split nid piece cb with e | pc
    · simp [UplService.split, hfind, hsp]
    · rcases hins : insertPack (updatePack s.upls upl (fun _ => pc.1)) pc.2 with e2 | upls2
      · have hid : pc.1.id = upl := by
          rw [split_ok_parent_id parent nid piece cb pc hsp]
          exact findId_some_id s.upls upl parent hfind
        constructor
        · simp [UplService.split, hfind, hsp, hins]
        · simp only [UplService.split, hfind, hsp, hins]
          exact updatePack_filter s.upls upl pc.1 hid
      · exfalso
        have : (UplService.split s upl nid piece cb).2 = Except.ok pc.1 := by
          simp [UplService.split, hfind, hsp, hins]
        rw [this] at herr
        exact Bool.noConfusion herr

/-- C5 counterexample: dividing parent `"18"` with child id `"26"` — an id
already present in the active collection — returns an error, yet the
registry is not what it was: the parent has been mutated in place
(remaining 1000 → 750, successor `"26"` recorded) before the failing child
insert. -/
theorem service_divide_error_mutates_parent_cex :
    (UplService.divide sampleDivideState "18" "26" 250 1).2.isOk = false ∧
    (findId (UplService.divide sampleDivideState "18" "26" 250 1).1.upls "18").map Upl.kind =
      some (Kind.OpenedSku 7 750 ["26"]) ∧
    (findId sampleDivideState.upls "18").map Upl.kind =
      some (Kind.OpenedSku 7 1000 []) := by
  refine ⟨rfl, rfl, rfl⟩

/-- C5 amended: an erroring `Divide` or `Split` request leaves the archive
untouched and every UPL other than the targeted parent unchanged; errors
raised before the state-machine transition (missing id, state-machine
guard) leave the registry exactly as it was, but when the child insert
fails after a successful transition the parent keeps the mutation (and, for
`Split`, its appended history event). -/
theorem service_error_frame :
    (∀ (s : UplService) (upl nid : String) (amt cb : Nat),
      (UplService.divide s upl nid amt cb).2.isOk = false →
      (UplService.divide s upl nid amt cb).1.archive = s.archive ∧
      ((UplService.divide s upl nid amt cb).1.upls.filter (fun u => u.id ≠ upl) =
        s.upls.filter (fun u => u.id ≠ upl))) ∧
    (∀ (s : UplService) (upl nid : String) (piece cb : Nat),
      (UplService.split s upl nid piece cb).2.isOk = false →
      (UplService.split s upl nid piece cb).1.archive = s.archive ∧
      ((UplService.split s upl nid piece cb).1.upls.filter (fun u => u.id ≠ upl) =
        s.upls.filter (fun u => u.id ≠ upl))) :=
  ⟨service_divide_error_frame, service_split_error_frame⟩

/-- C5 witness: the failing divide (child id `"26"` already present) and a
failing split (the parent is not a bulk) on the concrete registry state. -/
theorem service_error_frame_witness :
    ((UplService.divide sampleDivideState "18" "26" 250 1).1.archive =
        sampleDivideState.archive ∧
      ((UplService.divide sampleDivideState "18" "26" 250 1).1.upls.filter
          (fun u => u.id ≠ "18") =
        sampleDivideState.upls.filter (fun u => u.id ≠ "18"))) ∧
    ((UplService.split sampleDivideState "18" "26" 2 1).1.archive =
        sampleDivideState.archive ∧
      ((UplService.split sampleDivideState "18" "26" 2 1).1.upls.filter
          (fun u => u.id ≠ "18") =
        sampleDivideState.upls.filter (fun u => u.id ≠ "18"))) :=
  ⟨service_error_frame.1 sampleDivideState "18" "26" 250 1 (by rfl),
   service_error_frame.2 sampleDivideState "18" "26" 2 1 (by rfl)⟩

/-! ## C10 — unguarded margin subtractions -/

theorem u32sub_underflow (a b : Nat) (hab : a < b) (hb : b < 2 ^ 32) :
    u32sub a b = 2 ^ 32 + a - b := by
  unfold u32sub
  have h32 : (2 : Nat) ^ 32 = 4294967296 := by norm_num
  omega

/-- C10.  Both margin subtractions are unguarded `u32` arithmetic:
(a) `set_depreciation_price(Some(p))` with `p` below the procurement value
never errors — it stores the wrapped margin `2^32 + p - procurement`
(the mathematically correct `p - procurement` would be negative, `0` as a
truncated `Nat`); (b) `recalculate_prices` on an `OpenedSku` whose
recomputed retail share is below its recomputed procurement share stores
the wrapped margin likewise.  No guard or error path exists in either. -/
theorem margin_subtraction_underflows :
    (∀ (u : Upl) (p cb : Nat) (dep : Depreciation),
      u.depreciation = some dep → p < u.procurement_net_price →
      u.procurement_net_price < 2 ^ 32 →
      ∃ u2, u.set_depreciation_price (some p) cb = Except.ok u2 ∧
        u2.depreciation = some (dep.set_price (some p)
          (some (2 ^ 32 + p - u.procurement_net_price))) ∧
        p - u.procurement_net_price = 0) ∧
    (∀ (u : Upl) (sku a : Nat) (succ : List String),
      u.kind = Kind.OpenedSku sku a succ →
      roundRatio a u.sku_price_net u.sku_divisible_amount <
        roundRatio a u.procurement_net_price_sku u.sku_divisible_amount →
      roundRatio a u.procurement_net_price_sku u.sku_divisible_amount < 2 ^ 32 →
      (u.recalculate_prices).margin_net =
        2 ^ 32 + roundRatio a u.sku_price_net u.sku_divisible_amount
          - roundRatio a u.procurement_net_price_sku u.sku_divisible_amount) := by
  constructor
  · intro u p cb dep hdep hlt hb
    refine ⟨({ u with depreciation := some (dep.set_price (some p)
        (some (u32sub p u.procurement_net_price))) }).set_history
        (UplHistoryItem.new (CreatedBy.Uid cb)
          (UplHistoryEvent.SetDepreciatedPrice (some p))), ?_, ?_, by omega⟩
    · simp [Upl.set_depreciation_price, hdep]
    · simp [Upl.set_history, u32sub_underflow p u.procurement_net_price hlt hb]
  · intro u sku a succ hk hlt hb
    unfold Upl.recalculate_prices
    rw [hk]
    simp only
    exact u32sub_underflow _ _ hlt hb

/-- C10 witness: a depreciated UPL with procurement value 150 accepts the
special price 100 and stores margin `2^32 - 50`; an opened UPL sold at a
loss (retail share 25, procurement share 150) recomputes margin
`2^32 - 125`. -/
theorem margin_subtraction_underflows_witness :
    (∃ u2, sampleDepreciatedUpl.set_depreciation_price (some 100) 1 = Except.ok u2 ∧
      u2.depreciation = some ((Depreciation.new 1 "sérült").set_price (some 100)
        (some (2 ^ 32 + 100 - sampleDepreciatedUpl.procurement_net_price))) ∧
      100 - sampleDepreciatedUpl.procurement_net_price = 0) ∧
    ((sampleLossUpl.recalculate_prices).margin_net =
      2 ^ 32 + roundRatio 250 sampleLossUpl.sku_price_net sampleLossUpl.sku_divisible_amount
        - roundRatio 250 sampleLossUpl.procurement_net_price_sku
            sampleLossUpl.sku_divisible_amount) :=
  ⟨margin_subtraction_underflows.1 sampleDepreciatedUpl 100 1
      (Depreciation.new 1 "sérült") rfl (by decide) (by decide),
   margin_subtraction_underflows.2 sampleLossUpl 7 250 [] rfl (by decide) (by decide)⟩

/-! ## C9 — close-cart -/

theorem closeCartStep_id (c : String) (cb : Nat) (u : Upl) :
    (UplService.closeCartStep c cb u).id = u.id := by
  unfold UplService.closeCartStep
  by_cases hl : u.lock = Lock.Cart c
  · simp [hl, Upl.move_upl, Upl.can_move, Upl.unlock_forced, Upl.set_history]
  · simp [hl]

theorem closeCartStep_locked (c : String) (cb : Nat) (u : Upl)
    (hl : u.lock = Lock.Cart c) :
    (UplService.closeCartStep c cb u).location = Location.Cart c ∧
    (UplService.closeCartStep c cb u).lock = Lock.None := by
  unfold UplService.closeCartStep
  simp [hl, Upl.move_upl, Upl.can_move, Upl.unlock_forced, Upl.set_history]

theorem closeCartStep_not_locked (c : String) (cb : Nat) (u : Upl)
    (hl : u.lock ≠ Lock.Cart c) :
    UplService.closeCartStep c cb u = u := by
  unfold UplService.closeCartStep
  simp [hl]

theorem closeCartStep_lock_ne (c : String) (cb : Nat) (u : Upl) :
    (UplService.closeCartStep c cb u).lock ≠ Lock.Cart c := by
  by_cases hl : u.lock = Lock.Cart c
  · rw [(closeCartStep_locked c cb u hl).2]
    intro h
    exact Lock.noConfusion h
  · rw [closeCartStep_not_locked c cb u hl]
    exact hl

theorem closeCartStep_loc_cart (c : String) (cb : Nat) (u : Upl)
    (h : u.lock = Lock.Cart c ∨ u.location = Location.Cart c) :
    (UplService.closeCartStep c cb u).location = Location.Cart c := by
  by_cases hl : u.lock = Lock.Cart c
  · exact (closeCartStep_locked c cb u hl).1
  · rw [closeCartStep_not_locked c cb u hl]
    rcases h with h | h
    · exact absurd h hl
    · exact h

theorem removeFold_subset :
    ∀ (L acc : List Upl) (v : Upl),
      v ∈ L.foldl UplService.activeRemoveStep acc → v ∈ acc := by
  intro L
  induction L with
  | nil => intro acc v hv; exact hv
  | cons b L ih =>
    intro acc v hv
    rw [List.foldl_cons] at hv
    have := ih _ v hv
    exact (List.mem_filter.mp this).1

theorem removeFold_kills :
    ∀ (L acc : List Upl) (w : Upl), w ∈ L →
      ∀ v ∈ L.foldl UplService.activeRemoveStep acc, v.id ≠ w.id := by
  intro L
  induction L with
  | nil => intro acc w hw; exact absurd hw (List.not_mem_nil w)
  | cons b L ih =>
    intro acc w hw v hv
    rw [List.foldl_cons] at hv
    rcases List.mem_cons.mp hw with rfl | hw2
    · have hsub := removeFold_subset L _ v hv
      have := (List.mem_filter.mp hsub).2
      simpa using this
    · exact ih _ w hw2 v hv

theorem insertFold_mono :
    ∀ (L arch : List Upl) (v : Upl), v ∈ arch →
      v ∈ L.foldl UplService.archiveInsertStep arch := by
  intro L
  induction L with
  | nil => intro arch v hv; exact hv
  | cons b L ih =>
    intro arch v hv
    rw [List.foldl_cons]
    apply ih
    by_cases hany : arch.any (fun v2 => v2.id = b.id)
    · have he : UplService.archiveInsertStep arch b = arch := by
        unfold UplService.archiveInsertStep insertPack
        simp [hany]
      rw [he]
      exact hv
    · have he : UplService.archiveInsertStep arch b = arch ++ [b] := by
        unfold UplService.archiveInsertStep insertPack
        simp [hany]
      rw [he]
      exact List.mem_append_left _ hv

theorem insertFold_id_present :
    ∀ (L arch : List Upl) (w : Upl), w ∈ L →
      ∃ v ∈ L.foldl UplService.archiveInsertStep arch, v.id = w.id := by
  intro L
  induction L with
  | nil => intro arch w hw; exact absurd hw (List.not_mem_nil w)
  | cons b L ih =>
    intro arch w hw
    rcases List.mem_cons.mp hw with rfl | hw2
    · rw [List.foldl_cons]
      have hstep : ∃ v ∈ UplService.archiveInsertStep arch w, v.id = w.id := by
        by_cases hany : arch.any (fun v => v.id = w.id)
        · have he : UplService.archiveInsertStep arch w = arch := by
            unfold UplService.archiveInsertStep insertPack
            simp [hany]
          rw [he]
          rcases List.any_eq_true.mp hany with ⟨v, hv, hvid⟩
          exact ⟨v, hv, of_decide_eq_true hvid⟩
        · have he : UplService.archiveInsertStep arch w = arch ++ [w] := by
            unfold UplService.archiveInsertStep insertPack
            simp [hany]
          rw [he]
          exact ⟨w, List.mem_append_right _ (List.mem_singleton.mpr rfl), rfl⟩
      rcases hstep with ⟨v, hv, hvid⟩
      exact ⟨v, insertFold_mono L _ v hv, hvid⟩
    · rw [List.foldl_cons]
      exact ih _ w hw2

theorem insertFold_exact :
    ∀ (L arch : List Upl) (w : Upl), w ∈ L →
      (L.map (fun u => u.id)).Nodup →
      (∀ v ∈ arch, ∀ x ∈ L, v.id ≠ x.id) →
      w ∈ L.foldl UplService.archiveInsertStep arch := by
  intro L
  induction L with
  | nil => intro arch w hw; exact absurd hw (List.not_mem_nil w)
  | cons b L ih =>
    intro arch w hw hnd hdisj
    rw [List.foldl_cons]
    have hstep : UplService.archiveInsertStep arch b = arch ++ [b] := by
      unfold UplService.archiveInsertStep insertPack
      have hany : arch.any (fun v => v.id = b.id) = false := by
        rw [List.any_eq_false]
        intro v hv
        simpa using hdisj v hv b (List.mem_cons_self b L)
      simp [hany]
    rw [hstep]
    rcases List.mem_cons.mp hw with rfl | hw2
    · exact insertFold_mono L _ w (List.mem_append_right _ (List.mem_singleton.mpr rfl))
    · apply ih _ w hw2 (List.Nodup.of_cons (by simpa using hnd))
      intro v hv x hx
      rcases List.mem_append.mp hv with hv2 | hv2
      · exact hdisj v hv2 x (List.mem_cons_of_mem b hx)
      · have hvb : v = b := List.mem_singleton.mp hv2
        subst hvb
        have hb : v.id ∉ L.map (fun u => u.id) :=
          (List.nodup_cons.mp
            (show (v.id :: L.map (fun u => u.id)).Nodup from by simpa using hnd)).1
        intro hbx
        refine hb ?_
        rw [hbx]
        exact List.mem_map_of_mem (fun u => u.id) hx

theorem upls1_ids (s : UplService) (c : String) (cb : Nat) :
    (s.upls.map (UplService.closeCartStep c cb)).map (fun u => u.id) =
      s.upls.map (fun u => u.id) := by
  rw [List.map_map]
  apply List.map_congr_left
  intro a _
  exact closeCartStep_id c cb a

/-- C9 amended: assuming distinct active ids and active/archive
disjointness (spec invariant P9), after `close_cart(c)`: (i) no active UPL
has `lock = Cart(c)`; (ii) every UPL previously locked to `c` or already
located at `Location::Cart(c)` has its id in the archive and no longer in
the active collection; (iii) every UPL previously **locked** to `c` is
archived with `location = Cart(c)` and `lock = None`.  A UPL that was
merely located at the cart is archived as it was — retaining whatever lock
it held (the lock is cleared only by the move applied to cart-locked
UPLs). -/
theorem close_cart_archives (s : UplService) (c : String) (cb : Nat)
    (hnd : (s.upls.map (fun u => u.id)).Nodup)
    (hdisj : ∀ v ∈ s.archive, ∀ u ∈ s.upls, v.id ≠ u.id) :
    (∀ v ∈ (s.close_cart c cb).upls, v.lock ≠ Lock.Cart c) ∧
    (∀ u ∈ s.upls, (u.lock = Lock.Cart c ∨ u.location = Location.Cart c) →
      (∃ v ∈ (s.close_cart c cb).archive, v.id = u.id) ∧
      (∀ v ∈ (s.close_cart c cb).upls, v.id ≠ u.id)) ∧
    (∀ u ∈ s.upls, u.lock = Lock.Cart c →
      ∃ v ∈ (s.close_cart c cb).archive,
        v.id = u.id ∧ v.location = Location.Cart c ∧ v.lock = Lock.None) := by
  have hcu : (s.close_cart c cb).upls =
      ((s.upls.map (UplService.closeCartStep c cb)).filter
          (fun u => u.location = Location.Cart c)).foldl UplService.activeRemoveStep
        (s.upls.map (UplService.closeCartStep c cb)) := rfl
  have hca : (s.close_cart c cb).archive =
      ((s.upls.map (UplService.closeCartStep c cb)).filter
          (fun u => u.location = Location.Cart c)).foldl UplService.archiveInsertStep
        s.archive := rfl
  have hnd1 : ((s.upls.map (UplService.closeCartStep c cb)).map (fun u => u.id)).Nodup := by
    rw [upls1_ids]
    exact hnd
  have hndA : (((s.upls.map (UplService.closeCartStep c cb)).filter
      (fun u => u.location = Location.Cart c)).map (fun u => u.id)).Nodup :=
    hnd1.sublist ((List.filter_sublist _).map _)
  have hdisjA : ∀ v ∈ s.archive,
      ∀ x ∈ (s.upls.map (UplService.closeCartStep c cb)).filter
        (fun u => u.location = Location.Cart c), v.id ≠ x.id := by
    intro v hv x hx
    have hx1 := (List.mem_filter.mp hx).1
    rcases List.mem_map.mp hx1 with ⟨u0, hu0, rfl⟩
    rw [closeCartStep_id]
    exact hdisj v hv u0 hu0
  have hmemA : ∀ u ∈ s.upls, (u.lock = Lock.Cart c ∨ u.location = Location.Cart c) →
      UplService.closeCartStep c cb u ∈
        (s.upls.map (UplService.closeCartStep c cb)).filter
          (fun u => u.location = Location.Cart c) := by
    intro u hu hcase
    refine List.mem_filter.mpr ⟨List.mem_map_of_mem _ hu, ?_⟩
    simp [closeCartStep_loc_cart c cb u hcase]
  refine ⟨?_, ?_, ?_⟩
  · intro v hv
    rw [hcu] at hv
    have hv1 := removeFold_subset _ _ v hv
    rcases List.mem_map.mp hv1 with ⟨u0, _, rfl⟩
    exact closeCartStep_lock_ne c cb u0
  · intro u hu hcase
    have hwA := hmemA u hu hcase
    constructor
    · rw [hca]
      rcases insertFold_id_present _ s.archive _ hwA with ⟨v, hv, hvid⟩
      exact ⟨v, hv, hvid.trans (closeCartStep_id c cb u)⟩
    · intro v hv
      rw [hcu] at hv
      have := removeFold_kills _ _ _ hwA v hv
      rw [closeCartStep_id] at this
      exact this
  · intro u hu hl
    have hwA := hmemA u hu (Or.inl hl)
    rw [hca]
    refine ⟨UplService.closeCartStep c cb u,
      insertFold_exact _ s.archive _ hwA hndA hdisjA,
      closeCartStep_id c cb u,
      (closeCartStep_locked c cb u hl).1,
      (closeCartStep_locked c cb u hl).2⟩

/-- C9 counterexample: a UPL resting at `Location::Cart("c1")` with a
foreign `Delivery(5)` lock is swept into the archive by `close_cart("c1")`
with its lock intact — the claim demands every such archived snapshot have
`lock = None`. -/
theorem close_cart_foreign_lock_cex :
    ((UplService.close_cart sampleCloseCartState "c1" 1).archive.map
        (fun u => (u.id, u.location, u.lock))) =
      [("18", Location.Cart "c1", Lock.Delivery 5)] ∧
    Lock.Delivery 5 ≠ Lock.None := by
  constructor
  · rfl
  · decide

/-- C9 witness: the amended close-cart contract applied to the concrete
two-UPL state (`"18"` locked to cart `"c1"` at stock, `"26"` already at
the cart location). -/
theorem close_cart_archives_witness :
    (∀ v ∈ (UplService.close_cart sampleCloseCartState2 "c1" 1).upls,
      v.lock ≠ Lock.Cart "c1") ∧
    (∀ u ∈ sampleCloseCartState2.upls,
      (u.lock = Lock.Cart "c1" ∨ u.location = Location.Cart "c1") →
      (∃ v ∈ (UplService.close_cart sampleCloseCartState2 "c1" 1).archive,
        v.id = u.id) ∧
      (∀ v ∈ (UplService.close_cart sampleCloseCartState2 "c1" 1).upls,
        v.id ≠ u.id)) ∧
    (∀ u ∈ sampleCloseCartState2.upls, u.lock = Lock.Cart "c1" →
      ∃ v ∈ (UplService.close_cart sampleCloseCartState2 "c1" 1).archive,
        v.id = u.id ∧ v.location = Location.Cart "c1" ∧ v.lock = Lock.None) :=
  close_cart_archives sampleCloseCartState2 "c1" 1 (by decide) (by decide)

end UplMs
